import Mathlib

/-!
# Verification of the httpfind probing engine

A shallow embedding of the repository Overboard/httpfind: the address
expansion and URL construction of `url_generator`, the probe-outcome
classification of `fetch_page`, the completion-order filter loop of
`asynchronous`, and the caller-facing `survey` of both the `httpfind`
and the `httpscan` variant.  Library calls of the Python code
(`ipaddress`, `urllib.parse`, `re`) are modelled by executable Lean
definitions of their documented behaviour on the inputs the program
uses.
-/

set_option maxRecDepth 4000

namespace Httpfind

/-! ## Character-list utilities

The Python library calls (`str.split`-style splitting inside
`ipaddress`, netloc extraction inside `urllib.parse.urlsplit`) operate
on strings; we model them on `List Char`. -/

/-- Prepend a character to the first block of a block list. -/
def consHead (c : Char) : List (List Char) → List (List Char)
  | [] => [[c]]
  | h :: t => (c :: h) :: t

/-- Split a character list at every occurrence of `sep`; the separator is
dropped.  `splitOnChar sep []` is `[[]]`, matching Python's
`"".split(sep)`. -/
def splitOnChar (sep : Char) : List Char → List (List Char)
  | [] => [[]]
  | c :: rest =>
    if c = sep then [] :: splitOnChar sep rest
    else consHead c (splitOnChar sep rest)

theorem splitOnChar_of_not_mem {sep : Char} {l : List Char} (h : sep ∉ l) :
    splitOnChar sep l = [l] := by
  induction l with
  | nil => rfl
  | cons c rest ih =>
    have hc : c ≠ sep := fun he => h (he ▸ List.mem_cons_self c rest)
    have hrest : sep ∉ rest := fun hm => h (List.mem_cons_of_mem _ hm)
    simp only [splitOnChar, if_neg hc, ih hrest, consHead]

theorem splitOnChar_append {sep : Char} {l₁ : List Char} (l₂ : List Char)
    (h : sep ∉ l₁) :
    splitOnChar sep (l₁ ++ sep :: l₂) = l₁ :: splitOnChar sep l₂ := by
  induction l₁ with
  | nil => simp [splitOnChar]
  | cons c rest ih =>
    have hc : c ≠ sep := fun he => h (he ▸ List.mem_cons_self c rest)
    have hrest : sep ∉ rest := fun hm => h (List.mem_cons_of_mem _ hm)
    simp only [List.cons_append, splitOnChar, if_neg hc, List.append_eq, ih hrest, consHead]

/-- `takeWhile` passes over a block whose every element satisfies the
predicate. -/
theorem takeWhile_append_all {p : Char → Bool} {l₁ : List Char} (l₂ : List Char)
    (h : ∀ c ∈ l₁, p c = true) :
    List.takeWhile p (l₁ ++ l₂) = l₁ ++ List.takeWhile p l₂ := by
  induction l₁ with
  | nil => rfl
  | cons c rest ih =>
    have hc : p c = true := h c (List.mem_cons_self c rest)
    have hrest : ∀ x ∈ rest, p x = true := fun x hx => h x (List.mem_cons_of_mem _ hx)
    simp [List.takeWhile, hc, ih hrest]

theorem takeWhile_all {p : Char → Bool} {l : List Char} (h : ∀ c ∈ l, p c = true) :
    List.takeWhile p l = l := by
  have := @takeWhile_append_all p l [] h
  simpa using this

/-! ## Dotted-quad rendering and parsing

`str(ip)` on an `ipaddress.IPv4Address` renders the four octets in
decimal, joined by dots; `ipaddress.ip_address(s)` parses that form
back.  An IPv4 address is modelled as its numeric value, a `Nat` below
`2 ^ 32`. -/

/-- The characters a dotted-quad rendering may contain. -/
def ipCharList : List Char := ['0', '1', '2', '3', '4', '5', '6', '7', '8', '9', '.']

/-- The ten decimal digit characters. -/
def digitList : List Char := ['0', '1', '2', '3', '4', '5', '6', '7', '8', '9']

/-- Decimal rendering, without leading zeros, of one octet (a value
below 256, hence at most three digits). -/
def decString (b : Nat) : List Char :=
  if b < 10 then [Nat.digitChar b]
  else if b < 100 then [Nat.digitChar (b / 10), Nat.digitChar (b % 10)]
  else [Nat.digitChar (b / 100), Nat.digitChar (b / 10 % 10), Nat.digitChar (b % 10)]

/-- The character list of `str(ip)`: four decimal octets joined by dots. -/
def ipChars (n : Nat) : List Char :=
  decString (n / 16777216 % 256) ++ '.' ::
    (decString (n / 65536 % 256) ++ '.' ::
      (decString (n / 256 % 256) ++ '.' :: decString (n % 256)))

/-- Models Python `str(ipaddress.IPv4Address(n))`. -/
def ipToString (n : Nat) : String := String.mk (ipChars n)

/-- Numeric value of one decimal digit character. -/
def digitVal (c : Char) : Option Nat :=
  if c ∈ digitList then some (c.toNat - 48) else none

/-- Values of a digit-character list; `none` as soon as one character is
not a digit. -/
def digitsVal : List Char → Option (List Nat)
  | [] => some []
  | c :: cs =>
    match digitVal c, digitsVal cs with
    | some d, some ds => some (d :: ds)
    | _, _ => none

/-- Parse one octet of a dotted quad: one to three decimal digits whose
value is at most 255, as `ipaddress.ip_address` accepts. -/
def parseOctet (l : List Char) : Option Nat :=
  match digitsVal l with
  | none => none
  | some ds =>
    if ds = [] then none
    else if 3 < ds.length then none
    else
      let v := ds.foldl (fun a d => a * 10 + d) 0
      if v ≤ 255 then some v else none

/-- Models Python `int(ipaddress.ip_address(s))` for dotted-quad
strings: four octets separated by dots. -/
def parseIPv4 (s : String) : Option Nat :=
  match splitOnChar '.' s.data with
  | [a, b, c, d] =>
    match parseOctet a, parseOctet b, parseOctet c, parseOctet d with
    | some va, some vb, some vc, some vd =>
      some (va * 16777216 + vb * 65536 + vc * 256 + vd)
    | _, _, _, _ => none
  | _ => none

/-- Numeric address value of a dotted-quad string (0 when not parseable;
the scan only ever sorts strings produced by `ipToString`, which always
parse). -/
def ipOfString (s : String) : Nat := (parseIPv4 s).getD 0

theorem digitChar_mem_digitList {x : Nat} (h : x < 10) : Nat.digitChar x ∈ digitList := by
  interval_cases x <;> decide

theorem digitVal_digitChar {x : Nat} (h : x < 10) : digitVal (Nat.digitChar x) = some x := by
  interval_cases x <;> decide

theorem decString_mem {b : Nat} (hb : b < 256) {c : Char} (h : c ∈ decString b) :
    c ∈ digitList := by
  unfold decString at h
  split at h
  · next h10 =>
    simp only [List.mem_singleton] at h
    exact h ▸ digitChar_mem_digitList h10
  · split at h
    · next h100 =>
      simp only [List.mem_cons, List.mem_singleton, List.not_mem_nil, or_false] at h
      rcases h with rfl | rfl
      · exact digitChar_mem_digitList (by omega)
      · exact digitChar_mem_digitList (Nat.mod_lt _ (by norm_num))
    · simp only [List.mem_cons, List.mem_singleton, List.not_mem_nil, or_false] at h
      rcases h with rfl | rfl | rfl
      · exact digitChar_mem_digitList (by omega)
      · exact digitChar_mem_digitList (Nat.mod_lt _ (by norm_num))
      · exact digitChar_mem_digitList (Nat.mod_lt _ (by norm_num))

theorem digit_mem_ipCharList : ∀ c ∈ digitList, c ∈ ipCharList := by decide

theorem dot_not_mem_decString {b : Nat} (hb : b < 256) : '.' ∉ decString b := by
  intro h
  exact absurd (decString_mem hb h) (by decide)

theorem parseOctet_decString {b : Nat} (hb : b < 256) : parseOctet (decString b) = some b := by
  unfold decString
  split
  · next h10 =>
    have d1 := digitVal_digitChar h10
    simp only [parseOctet, digitsVal, d1, List.foldl]
    rw [if_neg (by simp), if_neg (by simp), if_pos (by omega)]
    congr 1
    omega
  · split
    · next h10 h100 =>
      have d1 := @digitVal_digitChar (b / 10) (by omega)
      have d2 := @digitVal_digitChar (b % 10) (Nat.mod_lt _ (by norm_num))
      simp only [parseOctet, digitsVal, d1, d2, List.foldl]
      rw [if_neg (by simp), if_neg (by simp), if_pos (by omega)]
      congr 1
      omega
    · next h10 h100 =>
      have d1 := @digitVal_digitChar (b / 100) (by omega)
      have d2 := @digitVal_digitChar (b / 10 % 10) (Nat.mod_lt _ (by norm_num))
      have d3 := @digitVal_digitChar (b % 10) (Nat.mod_lt _ (by norm_num))
      simp only [parseOctet, digitsVal, d1, d2, d3, List.foldl]
      rw [if_neg (by simp), if_neg (by simp), if_pos (by omega)]
      congr 1
      omega

theorem mem_ipChars {n : Nat} {c : Char} (h : c ∈ ipChars n) : c ∈ ipCharList := by
  have sub : ∀ b : Nat, ∀ c₂ ∈ decString (b % 256), c₂ ∈ ipCharList := fun b c₂ hc =>
    digit_mem_ipCharList c₂ (decString_mem (Nat.mod_lt _ (by norm_num)) hc)
  unfold ipChars at h
  simp only [List.mem_append, List.mem_cons] at h
  rcases h with h | rfl | h | rfl | h | rfl | h
  · exact sub _ _ h
  · decide
  · exact sub _ _ h
  · decide
  · exact sub _ _ h
  · decide
  · exact sub _ _ h

/-- Round trip of the dotted-quad rendering: `ip_address(str(ip))` is
`ip` again. -/
theorem parseIPv4_ipToString {n : Nat} (h : n < 4294967296) :
    parseIPv4 (ipToString n) = some n := by
  have ha : n / 16777216 % 256 < 256 := Nat.mod_lt _ (by norm_num)
  have hb : n / 65536 % 256 < 256 := Nat.mod_lt _ (by norm_num)
  have hc : n / 256 % 256 < 256 := Nat.mod_lt _ (by norm_num)
  have hd : n % 256 < 256 := Nat.mod_lt _ (by norm_num)
  have hsplit : splitOnChar '.' (ipChars n) =
      [decString (n / 16777216 % 256), decString (n / 65536 % 256),
        decString (n / 256 % 256), decString (n % 256)] := by
    unfold ipChars
    rw [splitOnChar_append _ (dot_not_mem_decString ha),
      splitOnChar_append _ (dot_not_mem_decString hb),
      splitOnChar_append _ (dot_not_mem_decString hc),
      splitOnChar_of_not_mem (dot_not_mem_decString hd)]
  show parseIPv4 (String.mk (ipChars n)) = some n
  unfold parseIPv4
  simp only [hsplit, parseOctet_decString ha, parseOctet_decString hb,
    parseOctet_decString hc, parseOctet_decString hd]
  congr 1
  omega

/-! ## URL construction and splitting

`url_generator` builds each URL with
`urlunsplit(('http', str(ip), path, '', ''))`; the result loop reads the
address back through `urlsplit(url).hostname` (httpfind) or
`urlsplit(url).netloc` (httpscan).  The models below follow the CPython
`urllib.parse` algorithms for absolute URLs of the `http` scheme with
empty query and fragment, which is the only shape this program ever
builds or splits. -/

/-- The path component of the URL being assembled: `urlunsplit` leaves
an empty path alone and prepends `'/'` to a non-empty path that does
not already start with one (the netloc is always non-empty here). -/
def fullPathChars : List Char → List Char
  | [] => []
  | c :: rest => if c = '/' then c :: rest else '/' :: c :: rest

/-- Models `urllib.parse.urlunsplit(('http', host, path, '', ''))`:
`'http'`, `':'`, `'//'`, the netloc, then the (possibly
slash-prefixed) path; query and fragment are empty. -/
def urlunsplit_http (host path : String) : String :=
  String.mk ("http://".data ++ host.data ++ fullPathChars path.data)

/-- Models the scheme component of `urllib.parse.urlsplit`: everything
before the first `':'` (already lower-case here, as in every URL the
program builds). -/
def urlScheme (url : String) : String :=
  String.mk (url.data.takeWhile (fun c => !(c == ':')))

/-- Models the netloc component of `urllib.parse.urlsplit` for an
absolute `http://` URL: the characters after the two slashes, up to the
first `'/'`, `'?'` or `'#'`. -/
def urlsplit_netloc (url : String) : List Char :=
  (url.data.drop 7).takeWhile (fun c => !(c == '/' || c == '?' || c == '#'))

/-- Models `urllib.parse.urlsplit(url).hostname` for an absolute
`http://` URL: the netloc with any user-info (up to the last `'@'`) and
any port (after a `':'`) removed, lower-cased. -/
def urlsplit_hostname (url : String) : String :=
  String.mk
    ((((splitOnChar '@' (urlsplit_netloc url)).getLastD []).takeWhile
      (fun c => !(c == ':'))).map Char.toLower)

theorem map_self {f : Char → Char} {l : List Char} (h : ∀ c ∈ l, f c = c) :
    l.map f = l := by
  induction l with
  | nil => rfl
  | cons c rest ih =>
    simp only [List.map_cons, h c (List.mem_cons_self c rest),
      ih fun x hx => h x (List.mem_cons_of_mem _ hx)]

theorem data_urlunsplit (host path : String) :
    (urlunsplit_http host path).data = "http://".data ++ host.data ++ fullPathChars path.data :=
  rfl

/-- The scheme of every URL the generator builds is `http`. -/
theorem urlScheme_urlunsplit (host path : String) :
    urlScheme (urlunsplit_http host path) = "http" := by
  unfold urlScheme
  rw [data_urlunsplit, List.append_assoc]
  rfl

theorem ipCharList_facts : ∀ c ∈ ipCharList,
    (!(c == '/' || c == '?' || c == '#')) = true ∧ (!(c == ':')) = true ∧
      c ≠ '@' ∧ Char.toLower c = c := by
  decide

theorem ip_no_stop {addr : Nat} : ∀ c ∈ (ipToString addr).data,
    (!(c == '/' || c == '?' || c == '#')) = true := fun c hc =>
  (ipCharList_facts c (mem_ipChars hc)).1

/-- The netloc of a built URL is exactly the dotted-quad host: the
address rendering contains no stop character, and the path component
(empty, or forced to start with `'/'`) never bleeds into the netloc. -/
theorem urlsplit_netloc_urlunsplit (addr : Nat) (path : String) :
    urlsplit_netloc (urlunsplit_http (ipToString addr) path) = (ipToString addr).data := by
  unfold urlsplit_netloc
  rw [data_urlunsplit, List.append_assoc]
  have h7 : ("http://".data).length = 7 := rfl
  rw [← h7, List.drop_left]
  have hstop := @ip_no_stop addr
  cases hp : path.data with
  | nil =>
    simp only [fullPathChars, List.append_nil]
    exact takeWhile_all hstop
  | cons c rest =>
    have hslash : ∀ (l : List Char),
        List.takeWhile (fun c => !(c == '/' || c == '?' || c == '#')) ('/' :: l) = [] :=
      fun l => rfl
    simp only [fullPathChars]
    by_cases hcs : c = '/'
    · subst hcs
      rw [if_pos rfl, takeWhile_append_all _ hstop, hslash, List.append_nil]
    · rw [if_neg hcs, takeWhile_append_all _ hstop, hslash, List.append_nil]

/-- Splitting a built URL recovers the dotted-quad host exactly: the
address rendering contains no user-info, port or upper-case character. -/
theorem urlsplit_hostname_urlunsplit (addr : Nat) (path : String) :
    urlsplit_hostname (urlunsplit_http (ipToString addr) path) = ipToString addr := by
  unfold urlsplit_hostname
  rw [urlsplit_netloc_urlunsplit]
  have hat : '@' ∉ (ipToString addr).data := fun hmem =>
    (ipCharList_facts _ (mem_ipChars hmem)).2.2.1 rfl
  rw [splitOnChar_of_not_mem hat]
  have hcolon : ∀ c ∈ (ipToString addr).data, (!(c == ':')) = true := fun c hc =>
    (ipCharList_facts c (mem_ipChars hc)).2.1
  show String.mk ((((ipToString addr).data).takeWhile _).map Char.toLower) = _
  have hmap : List.map Char.toLower ((ipToString addr).data) = (ipToString addr).data :=
    map_self (fun c hc => (ipCharList_facts c (mem_ipChars hc)).2.2.2)
  rw [takeWhile_all hcolon, hmap]

/-! ## Address expansion: `url_generator`

`url_generator` (httpfind.py lines 105-124; httpscan.py has an
identical copy) parses the network, refuses more than 256 addresses by
raising `NotImplementedError`, iterates `network_object.hosts()` when
the network has more than one address and `[network_object.network_address]`
otherwise, and returns a Python *generator expression* of URLs. -/

/-- A Python generator object: the elements not yet yielded.  A
generator expression is consumed by iteration; once drained it yields
nothing more. -/
structure PyGen (α : Type) where
  elems : List α
deriving DecidableEq

deriving instance DecidableEq for Except

/-- Iterate a generator to exhaustion: the yielded elements together
with the spent generator. -/
def PyGen.toListConsume {α : Type} (g : PyGen α) : List α × PyGen α := (g.elems, ⟨[]⟩)

/-- The result of `ipaddress.ip_network(network)`: a base address and a
prefix length.  (`ip_network` itself is the caller-side parse; its
output is the engine's input.) -/
structure NetworkSpec where
  address : Nat
  prefixLen : Nat
deriving DecidableEq

/-- A well-formed IPv4 network as `ipaddress.ip_network` produces it:
prefix at most 32, base address below `2 ^ 32` with all host bits
zero. -/
def NetworkSpec.valid (s : NetworkSpec) : Prop :=
  s.prefixLen ≤ 32 ∧ s.address < 4294967296 ∧ s.address % 2 ^ (32 - s.prefixLen) = 0

instance (s : NetworkSpec) : Decidable s.valid := by
  unfold NetworkSpec.valid
  infer_instance

/-- `network_object.num_addresses` for an IPv4 network. -/
def numAddresses (s : NetworkSpec) : Nat := 2 ^ (32 - s.prefixLen)

/-- Models `IPv4Network.hosts()` of the Python `ipaddress` library: all
addresses between the network and broadcast addresses, except that a
two-address (/31) network yields both of its addresses and a /32 yields
its single address. -/
def hosts (s : NetworkSpec) : List Nat :=
  if numAddresses s ≤ 2 then (List.range (numAddresses s)).map (fun i => s.address + i)
  else (List.range (numAddresses s - 2)).map (fun i => s.address + 1 + i)

/-- Pre-flight failures of the engine.  `RangeTooLarge` models the
`NotImplementedError` that `url_generator` raises for more than 256
addresses; `BadPattern` models the `re.error` that `re.compile` raises
inside `survey` for a pattern outside the modelled regular-expression
fragment. -/
inductive ScanError where
  | RangeTooLarge
  | BadPattern
deriving DecidableEq

/-- The `network_hosts` local of `url_generator`: `hosts()` when the
network has more than one address, else the bare network address. -/
def scanAddrs (s : NetworkSpec) : List Nat :=
  if 1 < numAddresses s then hosts s else [s.address]

/-- `url_generator(network, path)`: refuse oversized ranges before
anything else, otherwise return the generator of one URL per host. -/
def url_generator (network : NetworkSpec) (path : String) : Except ScanError (PyGen String) :=
  if 256 < numAddresses network then Except.error ScanError.RangeTooLarge
  else Except.ok ⟨(scanAddrs network).map (fun ip => urlunsplit_http (ipToString ip) path)⟩

/-! ## Probe classification: `fetch_page`

`fetch_page` (httpfind.py lines 17-65; httpscan.py lines 19-56 is
identical in its classification) issues one GET and classifies it: each
`aiohttp` exception class the code catches, and the success path, maps
to exactly one status tuple `(host, status, text-or-error)`. -/

/-- A *handled* fetch event: one constructor per exception class an
`except` clause of `fetch_page` catches, plus the success case.  This
is the sub-space of client behaviour that `fetch_page` classifies; the
client can also raise outside these classes (the generic traps are left
commented out in both source files), which `ClientEvent` below adds. -/
inductive FetchResult where
  | respError (detail : String)
  | connError (detail : String)
  | serverError (detail : String)
  | badUrl (detail : String)
  | payloadError (detail : String)
  | ok (body : String)
deriving DecidableEq

/-- The spec's probe-outcome taxonomy. -/
inductive ProbeOutcome where
  | Found (body : String)
  | NoPage (detail : String)
  | NoHTTP (detail : String)
  | NoDevice (detail : String)
  | BadURL (detail : String)
  | NoRead (detail : String)
deriving DecidableEq

/-- Classification of a fetch into the outcome taxonomy, one branch per
`except` clause of `fetch_page`. -/
def outcomeOf : FetchResult → ProbeOutcome
  | .respError d => .NoPage d
  | .connError d => .NoHTTP d
  | .serverError d => .NoDevice d
  | .badUrl d => .BadURL d
  | .payloadError d => .NoRead d
  | .ok body => .Found body

/-- The status string `fetch_page` writes for each outcome kind. -/
def statusOf : ProbeOutcome → String
  | .Found _ => "found"
  | .NoPage _ => "no page"
  | .NoHTTP _ => "no http"
  | .NoDevice _ => "no dev"
  | .BadURL _ => "no URL"
  | .NoRead _ => "no read"

/-- The six status strings, one per outcome kind. -/
def statusStrings : List String :=
  ["found", "no page", "no http", "no dev", "no URL", "no read"]

/-- `fetch_page(session, host)`: the `results_tuple` built by each
branch of its `try`/`except`/`else` ladder, given what the client did. -/
def fetch_page (host : String) (r : FetchResult) : String × String × String :=
  match r with
  | .respError err => (host, "no page", err)
  | .connError err => (host, "no http", err)
  | .serverError err => (host, "no dev", err)
  | .badUrl err => (host, "no URL", err)
  | .payloadError err => (host, "no read", err)
  | .ok body => (host, "found", body)

/-- The full space of client behaviour for one request: the handled
events of `FetchResult`, or an exception outside the caught classes —
for instance a bare `aiohttp.ClientOSError`, which is a *superclass* of
the caught `ClientConnectorError` and so matches none of the `except`
clauses (both source files carry the generic trap only as commented-out
code). -/
inductive ClientEvent where
  | respError (detail : String)
  | connError (detail : String)
  | serverError (detail : String)
  | badUrl (detail : String)
  | payloadError (detail : String)
  | ok (body : String)
  | otherError (detail : String)
deriving DecidableEq

/-- The handled event of a client behaviour, when one of the `except`
clauses (or the success path) matches; `none` for an exception outside
the caught classes. -/
def eventHandled : ClientEvent → Option FetchResult
  | .respError d => some (.respError d)
  | .connError d => some (.connError d)
  | .serverError d => some (.serverError d)
  | .badUrl d => some (.badUrl d)
  | .payloadError d => some (.payloadError d)
  | .ok body => some (.ok body)
  | .otherError _ => none

/-- Running `fetch_page` under a client behaviour: a handled event
builds the `results_tuple`; an exception outside the caught classes
propagates out of the coroutine — no tuple, no classified outcome (it
would be re-raised at `await future` inside `asynchronous`, aborting
the scan). -/
def fetch_page_run (host : String) (e : ClientEvent) : Option (String × String × String) :=
  (eventHandled e).map (fetch_page host)

/-! ## The compiled filter: Python `re`

`survey` compiles the caller's pattern with `re.compile(pattern)` and
the scan loop tests each body with `re_filter.search(body)`, which is
truthy exactly when the pattern matches at some position of the body.
The compiled object is modelled as a `RegularExpression Char`
(Mathlib's regular expressions, whose language semantics is
`matches'`); `compile` covers the fragment of Python syntax the
repository uses — literal characters, grouping `( )`, alternation `|`
and repetition `*` — and is `none` outside it. -/

/-- Consume trailing `'*'` repetitions after an atom. -/
def pStars (r : RegularExpression Char) : List Char → RegularExpression Char × List Char
  | '*' :: rest => pStars (RegularExpression.star r) rest
  | l => (r, l)

mutual

/-- Parse an alternation `seq ('|' alt)?`. -/
def pAlt : Nat → List Char → Option (RegularExpression Char × List Char)
  | 0, _ => none
  | Nat.succ fuel, l =>
    match pSeq fuel l with
    | none => none
    | some (r1, rest) =>
      match rest with
      | '|' :: rest2 =>
        match pAlt fuel rest2 with
        | none => none
        | some (r2, rest3) => some (RegularExpression.plus r1 r2, rest3)
      | _ => some (r1, rest)

/-- Parse a (possibly empty) concatenation of starred atoms. -/
def pSeq : Nat → List Char → Option (RegularExpression Char × List Char)
  | 0, _ => none
  | Nat.succ fuel, l =>
    match l with
    | [] => some (RegularExpression.epsilon, [])
    | c :: _ =>
      if c = ')' ∨ c = '|' then some (RegularExpression.epsilon, l)
      else
        match pAtom fuel l with
        | none => none
        | some (r1, rest) =>
          match pSeq fuel (pStars r1 rest).2 with
          | none => none
          | some (r2, rest2) => some (RegularExpression.comp (pStars r1 rest).1 r2, rest2)

/-- Parse one atom: a parenthesised alternation or a literal character. -/
def pAtom : Nat → List Char → Option (RegularExpression Char × List Char)
  | 0, _ => none
  | Nat.succ fuel, l =>
    match l with
    | [] => none
    | '(' :: rest =>
      match pAlt fuel rest with
      | some (r, ')' :: rest2) => some (r, rest2)
      | _ => none
    | c :: rest =>
      if c.isAlpha ∨ c ∈ digitList ∨ c = ' ' ∨ c = '_' ∨ c = '-' ∨ c = '/' then
        some (RegularExpression.char c, rest)
      else none

end

/-- Models `re.compile(pattern)` on the modelled fragment. -/
def compile (pattern : String) : Option (RegularExpression Char) :=
  match pAlt (4 * (pattern.data.length + 1)) pattern.data with
  | some (r, []) => some r
  | _ => none

/-- Does the expression match a prefix of `l`?  (One candidate start
position of `re.search`.) -/
def searchAt (r : RegularExpression Char) (l : List Char) : Bool :=
  (List.range (l.length + 1)).any fun j => r.rmatch (l.take j)

/-- Models the truthiness of `compiled.search(s)`: a match starting at
some position of `s`. -/
def reSearch (r : RegularExpression Char) (s : String) : Bool :=
  (List.range (s.data.length + 1)).any fun i => searchAt r (s.data.drop i)

/-! ## The scan loop: `asynchronous`, and `survey`

`asynchronous` (httpfind.py lines 68-102) awaits the fetch futures in
completion order (`asyncio.as_completed`), keeps a response whose
status contains `'found'`, and appends the URL to `qualified_devices`
when `re_filter.search(body)` is truthy.  The completion order is the
scan's only non-determinism; it is modelled as an oracle `arrivalOf`
that reorders the generated URL list, constrained to a permutation in
the theorems. -/

/-- Python's substring test `needle in haystack`. -/
def containsSub (needle haystack : List Char) : Bool :=
  (List.range (haystack.length + 1)).any fun i => needle.isPrefixOf (haystack.drop i)

/-- The filter loop of httpfind's `asynchronous`, over the responses in
completion order: `if 'found' in response[1]`, then
`if re_filter.search(response[2])`, append `response[0]`. -/
def asynchronous (completions : List String) (behavior : String → FetchResult)
    (re_filter : RegularExpression Char) : List String :=
  completions.foldl
    (fun qualified url =>
      if containsSub "found".data (fetch_page url (behavior url)).2.1.data then
        if reSearch re_filter (fetch_page url (behavior url)).2.2 then qualified ++ [url]
        else qualified
      else qualified)
    []

/-- httpscan's `asynchronous` differs only in what it appends:
`urlsplit(response[0]).netloc` instead of the URL itself. -/
def httpscan_asynchronous (completions : List String) (behavior : String → FetchResult)
    (re_filter : RegularExpression Char) : List String :=
  completions.foldl
    (fun qualified url =>
      if containsSub "found".data (fetch_page url (behavior url)).2.1.data then
        if reSearch re_filter (fetch_page url (behavior url)).2.2 then
          qualified ++ [String.mk (urlsplit_netloc url)]
        else qualified
      else qualified)
    []

/-- The sort key of httpfind's `survey`:
`ipaddress.ip_address(x.hostname)`, compared numerically. -/
def hostnameKey (url : String) : Nat := ipOfString (urlsplit_hostname url)

/-- Insert into a key-sorted list (ascending). -/
def insort (key : String → Nat) (x : String) : List String → List String
  | [] => [x]
  | y :: ys => if key x ≤ key y then x :: y :: ys else y :: insort key x ys

/-- Models Python `sorted(l, key=key)`: ascending by key. -/
def sortByKey (key : String → Nat) : List String → List String
  | [] => []
  | x :: xs => insort key x (sortByKey key xs)

/-- httpfind's `survey(network, path, pattern, log)` (lines 127-154):
expand the network (its failure aborts before anything else), compile
the pattern, run `asynchronous` on the URLs in completion order, and
return the qualified URLs sorted by numeric address of their hostname.
`behavior` is what the network does for each URL; `arrivalOf` is the
completion-order oracle; `log` only changes logging and is not
modelled. -/
def survey (network : NetworkSpec) (path pattern : String)
    (behavior : String → FetchResult) (arrivalOf : List String → List String) :
    Except ScanError (List String) :=
  match url_generator network path with
  | Except.error e => Except.error e
  | Except.ok gen =>
    match compile pattern with
    | none => Except.error ScanError.BadPattern
    | some re_filter =>
      Except.ok (sortByKey hostnameKey
        (asynchronous (arrivalOf (PyGen.toListConsume gen).1) behavior re_filter))

/-- httpscan's `survey(network, path, filter, log)` (lines 104-118):
identical pre-flight, but the qualified netlocs are returned in
completion order, without any sort. -/
def httpscan_survey (network : NetworkSpec) (path filt : String)
    (behavior : String → FetchResult) (arrivalOf : List String → List String) :
    Except ScanError (List String) :=
  match url_generator network path with
  | Except.error e => Except.error e
  | Except.ok gen =>
    match compile filt with
    | none => Except.error ScanError.BadPattern
    | some re_filter =>
      Except.ok (httpscan_asynchronous
        (arrivalOf (PyGen.toListConsume gen).1) behavior re_filter)

/-- Is the list ascending under the key (adjacent pairs)? -/
def ascendingBy (key : String → Nat) : List String → Bool
  | [] => true
  | [_] => true
  | a :: b :: rest => if key a ≤ key b then ascendingBy key (b :: rest) else false

/-! ## Helper lemmas about the scan loop -/

/-- One completed response qualifies when its status contains `'found'`
and the filter matches its text. -/
def qualifies (behavior : String → FetchResult) (re_filter : RegularExpression Char)
    (url : String) : Bool :=
  containsSub "found".data (fetch_page url (behavior url)).2.1.data &&
    reSearch re_filter (fetch_page url (behavior url)).2.2

theorem foldl_select {p : String → Bool} {f : String → String} (l : List String) :
    ∀ acc : List String,
      l.foldl (fun q u => if p u then q ++ [f u] else q) acc = acc ++ (l.filter p).map f := by
  induction l with
  | nil => intro acc; simp
  | cons u rest ih =>
    intro acc
    simp only [List.foldl_cons, List.filter_cons]
    cases hp : p u
    · simpa [hp] using ih acc
    · simp only [hp, if_pos]
      rw [ih (acc ++ [f u])]
      simp

theorem asynchronous_eq_filter (completions : List String) (behavior : String → FetchResult)
    (re_filter : RegularExpression Char) :
    asynchronous completions behavior re_filter =
      completions.filter (qualifies behavior re_filter) := by
  unfold asynchronous
  have hstep : (fun (qualified : List String) (url : String) =>
      if containsSub "found".data (fetch_page url (behavior url)).2.1.data then
        if reSearch re_filter (fetch_page url (behavior url)).2.2 then qualified ++ [url]
        else qualified
      else qualified) =
      fun q u => if qualifies behavior re_filter u then q ++ [id u] else q := by
    funext q u
    unfold qualifies
    cases h1 : containsSub "found".data (fetch_page u (behavior u)).2.1.data <;>
      cases h2 : reSearch re_filter (fetch_page u (behavior u)).2.2 <;> simp [h1, h2]
  rw [hstep, foldl_select _ [], List.map_id]
  rfl

theorem httpscan_asynchronous_eq_filter (completions : List String)
    (behavior : String → FetchResult) (re_filter : RegularExpression Char) :
    httpscan_asynchronous completions behavior re_filter =
      (completions.filter (qualifies behavior re_filter)).map
        (fun url => String.mk (urlsplit_netloc url)) := by
  unfold httpscan_asynchronous
  have hstep : (fun (qualified : List String) (url : String) =>
      if containsSub "found".data (fetch_page url (behavior url)).2.1.data then
        if reSearch re_filter (fetch_page url (behavior url)).2.2 then
          qualified ++ [String.mk (urlsplit_netloc url)]
        else qualified
      else qualified) =
      fun q u => if qualifies behavior re_filter u then
        q ++ [(fun url => String.mk (urlsplit_netloc url)) u] else q := by
    funext q u
    unfold qualifies
    cases h1 : containsSub "found".data (fetch_page u (behavior u)).2.1.data <;>
      cases h2 : reSearch re_filter (fetch_page u (behavior u)).2.2 <;> simp [h1, h2]
  rw [hstep, foldl_select _ []]
  rfl

theorem qualifies_iff (behavior : String → FetchResult) (re_filter : RegularExpression Char)
    (url : String) :
    qualifies behavior re_filter url = true ↔
      ∃ body, behavior url = FetchResult.ok body ∧ reSearch re_filter body = true := by
  unfold qualifies
  cases hb : behavior url with
  | ok body =>
    rw [show fetch_page url (FetchResult.ok body) = (url, "found", body) from rfl]
    rw [show containsSub "found".data ("found" : String).data = true from rfl]
    simp
  | respError d =>
    rw [show fetch_page url (FetchResult.respError d) = (url, "no page", d) from rfl]
    rw [show containsSub "found".data ("no page" : String).data = false from rfl]
    simp
  | connError d =>
    rw [show fetch_page url (FetchResult.connError d) = (url, "no http", d) from rfl]
    rw [show containsSub "found".data ("no http" : String).data = false from rfl]
    simp
  | serverError d =>
    rw [show fetch_page url (FetchResult.serverError d) = (url, "no dev", d) from rfl]
    rw [show containsSub "found".data ("no dev" : String).data = false from rfl]
    simp
  | badUrl d =>
    rw [show fetch_page url (FetchResult.badUrl d) = (url, "no URL", d) from rfl]
    rw [show containsSub "found".data ("no URL" : String).data = false from rfl]
    simp
  | payloadError d =>
    rw [show fetch_page url (FetchResult.payloadError d) = (url, "no read", d) from rfl]
    rw [show containsSub "found".data ("no read" : String).data = false from rfl]
    simp

theorem mem_asynchronous {completions : List String} {behavior : String → FetchResult}
    {re_filter : RegularExpression Char} {url : String} :
    url ∈ asynchronous completions behavior re_filter ↔
      url ∈ completions ∧
        ∃ body, behavior url = FetchResult.ok body ∧ reSearch re_filter body = true := by
  rw [asynchronous_eq_filter, List.mem_filter, qualifies_iff]

theorem mem_insort {key : String → Nat} {x a : String} {l : List String} :
    a ∈ insort key x l ↔ a = x ∨ a ∈ l := by
  induction l with
  | nil => simp [insort]
  | cons y ys ih =>
    unfold insort
    split
    · simp
    · rw [List.mem_cons, ih, List.mem_cons]
      tauto

theorem mem_sortByKey {key : String → Nat} {a : String} {l : List String} :
    a ∈ sortByKey key l ↔ a ∈ l := by
  induction l with
  | nil => simp [sortByKey]
  | cons x xs ih =>
    unfold sortByKey
    rw [mem_insort, ih, List.mem_cons]

/-! ## Search semantics -/

theorem searchAt_iff (r : RegularExpression Char) (l : List Char) :
    searchAt r l = true ↔ ∃ j, r.rmatch (l.take j) = true := by
  unfold searchAt
  rw [List.any_eq_true]
  constructor
  · rintro ⟨j, _, hj⟩
    exact ⟨j, hj⟩
  · rintro ⟨j, hj⟩
    refine ⟨min j l.length, List.mem_range.mpr (by omega), ?_⟩
    rcases Nat.le_total j l.length with h | h
    · rwa [Nat.min_eq_left h]
    · rw [Nat.min_eq_right h, List.take_length]
      rwa [List.take_of_length_le h] at hj

theorem reSearch_iff (r : RegularExpression Char) (s : String) :
    reSearch r s = true ↔ ∃ i, searchAt r (s.data.drop i) = true := by
  unfold reSearch
  rw [List.any_eq_true]
  constructor
  · rintro ⟨i, _, hi⟩
    exact ⟨i, hi⟩
  · rintro ⟨i, hi⟩
    refine ⟨min i s.data.length, List.mem_range.mpr (by omega), ?_⟩
    rcases Nat.le_total i s.data.length with h | h
    · rwa [Nat.min_eq_left h]
    · rw [Nat.min_eq_right h, List.drop_length]
      rwa [List.drop_eq_nil_of_le h] at hi

/-- `reSearch` is exactly "some substring of `s` is in the pattern's
language": the search finds a match at some position. -/
theorem reSearch_iff_matchSub (r : RegularExpression Char) (s : String) :
    reSearch r s = true ↔ ∃ i j, ((s.data.drop i).take j) ∈ r.matches' := by
  rw [reSearch_iff]
  constructor
  · rintro ⟨i, hi⟩
    rcases (searchAt_iff r _).mp hi with ⟨j, hj⟩
    exact ⟨i, j, (RegularExpression.rmatch_iff_matches' r _).mp hj⟩
  · rintro ⟨i, j, hm⟩
    exact ⟨i, (searchAt_iff r _).mpr ⟨j, by
      exact_mod_cast (RegularExpression.rmatch_iff_matches' r _).mpr hm⟩⟩

theorem compile_empty : compile "" = some RegularExpression.epsilon := rfl

/-- The empty pattern matches (at position 0) in every string. -/
theorem reSearch_epsilon (s : String) : reSearch RegularExpression.epsilon s = true := by
  rw [reSearch_iff]
  refine ⟨0, (searchAt_iff _ _).mpr ⟨0, ?_⟩⟩
  rw [List.take_zero]
  rfl

theorem survey_eq_of {network : NetworkSpec} {path pattern : String}
    {behavior : String → FetchResult} {arrivalOf : List String → List String}
    {g : PyGen String} {r : RegularExpression Char}
    (hg : url_generator network path = Except.ok g) (hc : compile pattern = some r) :
    survey network path pattern behavior arrivalOf =
      Except.ok (sortByKey hostnameKey (asynchronous (arrivalOf g.elems) behavior r)) := by
  simp only [survey, hg, hc]
  rfl

/-! ## The claims -/

/-- C1: For every scan, the qualified output contains exactly those
hosts whose probe outcome was `Found(body)` with the caller's compiled
filter pattern matching `body`; a host whose probe ended in any of the
five non-`Found` outcome kinds is never included in the qualified
set. -/
theorem qualified_iff_found_and_match (completions : List String)
    (behavior : String → FetchResult) (re_filter : RegularExpression Char) (url : String) :
    url ∈ asynchronous completions behavior re_filter ↔
      url ∈ completions ∧
        ∃ body, behavior url = FetchResult.ok body ∧ reSearch re_filter body = true :=
  mem_asynchronous

/-- C4 counterexample: not every possible fetch error terminates in a
classified outcome.  A bare `aiohttp.ClientOSError` — a superclass of
the caught `ClientConnectorError`, so matched by no `except` clause —
escapes `fetch_page` with no `results_tuple` and no outcome of any of
the six kinds. -/
theorem fetch_page_unhandled_escapes :
    fetch_page_run "http://10.0.0.1/" (ClientEvent.otherError "aiohttp.ClientOSError") = none ∧
      (eventHandled (ClientEvent.otherError "aiohttp.ClientOSError")).map outcomeOf = none :=
  ⟨rfl, rfl⟩

/-- C4 (amended): every probe whose fetch ends in one of the handled
events — the four caught `aiohttp` exception classes
(`ClientResponseError`, `ClientConnectorError`,
`ServerConnectionError`, `InvalidURL`), a body-read failure
(`ClientPayloadError`), or success — terminates in exactly one of the
six outcome kinds, with the status of its classified outcome; a fetch
error outside the caught classes escapes `fetch_page` unclassified, so
the six kinds do not cover every possible fetch error. -/
theorem fetch_page_handled_classified (host : String) (e : ClientEvent) (r : FetchResult)
    (h : eventHandled e = some r) :
    fetch_page_run host e = some (fetch_page host r) ∧
      (fetch_page host r).1 = host ∧
      (fetch_page host r).2.1 = statusOf (outcomeOf r) ∧
      statusStrings.count (statusOf (outcomeOf r)) = 1 := by
  constructor
  · simp [fetch_page_run, h]
  · cases r <;> exact ⟨rfl, rfl, by simp only [outcomeOf, statusOf]; decide⟩

theorem fetch_page_handled_classified_witness :
    eventHandled (ClientEvent.ok "hello") = some (FetchResult.ok "hello") ∧
      (fetch_page_run "http://10.0.0.1/" (ClientEvent.ok "hello") =
          some (fetch_page "http://10.0.0.1/" (FetchResult.ok "hello")) ∧
        (fetch_page "http://10.0.0.1/" (FetchResult.ok "hello")).1 = "http://10.0.0.1/" ∧
        (fetch_page "http://10.0.0.1/" (FetchResult.ok "hello")).2.1 =
          statusOf (outcomeOf (FetchResult.ok "hello")) ∧
        statusStrings.count (statusOf (outcomeOf (FetchResult.ok "hello"))) = 1) :=
  ⟨rfl, fetch_page_handled_classified "http://10.0.0.1/" (ClientEvent.ok "hello")
    (FetchResult.ok "hello") rfl⟩

/-- C9: Body filtering uses regex search semantics, not full-body
matching: a `Found` body qualifies if and only if the compiled pattern
matches at some position inside the body (some substring of the body is
in the pattern's language). -/
theorem qualified_iff_substring_match (completions : List String)
    (behavior : String → FetchResult) (re_filter : RegularExpression Char) (url : String) :
    url ∈ asynchronous completions behavior re_filter ↔
      url ∈ completions ∧
        ∃ body, behavior url = FetchResult.ok body ∧
          ∃ i j, ((body.data.drop i).take j) ∈ re_filter.matches' := by
  rw [mem_asynchronous]
  simp only [reSearch_iff_matchSub]

/-- C7: When the filter pattern is the empty string (the default),
every host whose probe outcome was `Found` qualifies, whatever the body
text: a scan with an empty pattern returns all `Found` hosts. -/
theorem survey_empty_pattern_all_found (network : NetworkSpec) (path : String)
    (behavior : String → FetchResult) (arrivalOf : List String → List String)
    (g : PyGen String) (hg : url_generator network path = Except.ok g)
    (hperm : (arrivalOf g.elems).Perm g.elems) :
    ∃ out, survey network path "" behavior arrivalOf = Except.ok out ∧
      ∀ url, url ∈ out ↔ url ∈ g.elems ∧ ∃ body, behavior url = FetchResult.ok body := by
  refine ⟨_, survey_eq_of hg compile_empty, ?_⟩
  intro url
  rw [mem_sortByKey, mem_asynchronous, hperm.mem_iff]
  constructor
  · rintro ⟨hmem, body, hb, _⟩
    exact ⟨hmem, body, hb⟩
  · rintro ⟨hmem, body, hb⟩
    exact ⟨hmem, body, hb, reSearch_epsilon body⟩

theorem survey_empty_pattern_all_found_witness :
    url_generator ⟨167772164, 30⟩ "" =
        Except.ok (⟨["http://10.0.0.5", "http://10.0.0.6"]⟩ : PyGen String) ∧
      (∃ out, survey ⟨167772164, 30⟩ "" "" (fun _ => FetchResult.ok "x") id = Except.ok out ∧
        ∀ url, url ∈ out ↔
          url ∈ (PyGen.mk ["http://10.0.0.5", "http://10.0.0.6"]).elems ∧
            ∃ body, (fun _ => FetchResult.ok "x") url = FetchResult.ok body) :=
  ⟨by decide,
    survey_empty_pattern_all_found ⟨167772164, 30⟩ "" (fun _ => FetchResult.ok "x") id
      ⟨["http://10.0.0.5", "http://10.0.0.6"]⟩ (by decide) (List.Perm.refl _)⟩

/-- C2: For every valid IPv4 network specification whose address count
is at most 256, expansion succeeds and yields exactly `count - 2` host
addresses when `count > 2` (network and broadcast excluded), and
exactly `count` addresses when `count ≤ 2` (a two-address /31 yields
both addresses, a single host yields that one address). -/
theorem url_generator_host_counts (s : NetworkSpec) (path : String)
    (hv : s.valid) (hle : numAddresses s ≤ 256) :
    ∃ g, url_generator s path = Except.ok g ∧
      g.elems.length = (scanAddrs s).length ∧
      (2 < numAddresses s →
        (scanAddrs s).length = numAddresses s - 2 ∧
          s.address ∉ scanAddrs s ∧
          s.address + numAddresses s - 1 ∉ scanAddrs s) ∧
      (numAddresses s ≤ 2 →
        (scanAddrs s).length = numAddresses s ∧
          (numAddresses s = 2 → scanAddrs s = [s.address, s.address + 1]) ∧
          (numAddresses s = 1 → scanAddrs s = [s.address])) := by
  have hpos : 0 < numAddresses s := pow_pos (by norm_num) _
  refine ⟨⟨(scanAddrs s).map (fun ip => urlunsplit_http (ipToString ip) path)⟩, ?_, ?_, ?_, ?_⟩
  · unfold url_generator
    rw [if_neg (by omega)]
  · simp
  · intro h2
    have hs : scanAddrs s = (List.range (numAddresses s - 2)).map (fun i => s.address + 1 + i) := by
      unfold scanAddrs hosts
      rw [if_pos (by omega), if_neg (by omega)]
    refine ⟨by rw [hs]; simp, ?_, ?_⟩
    · intro hmem
      rw [hs] at hmem
      simp only [List.mem_map, List.mem_range] at hmem
      obtain ⟨i, hi, he⟩ := hmem
      omega
    · intro hmem
      rw [hs] at hmem
      simp only [List.mem_map, List.mem_range] at hmem
      obtain ⟨i, hi, he⟩ := hmem
      omega
  · intro h2
    have h12 : numAddresses s = 1 ∨ numAddresses s = 2 := by omega
    refine ⟨?_, ?_, ?_⟩
    · rcases h12 with h1 | h1 <;>
        · unfold scanAddrs hosts
          rw [h1]
          simp
    · intro h1
      unfold scanAddrs hosts
      rw [h1]
      rw [if_pos (by norm_num), if_pos (by norm_num),
        show List.range 2 = [0, 1] from rfl]
      simp
    · intro h1
      unfold scanAddrs
      rw [h1, if_neg (by norm_num)]

theorem url_generator_host_counts_witness :
    (⟨3232235520, 30⟩ : NetworkSpec).valid ∧ numAddresses ⟨3232235520, 30⟩ ≤ 256 ∧
      (∃ g, url_generator ⟨3232235520, 30⟩ "" = Except.ok g ∧
        g.elems.length = (scanAddrs ⟨3232235520, 30⟩).length ∧
        (2 < numAddresses ⟨3232235520, 30⟩ →
          (scanAddrs ⟨3232235520, 30⟩).length = numAddresses ⟨3232235520, 30⟩ - 2 ∧
            (3232235520 : Nat) ∉ scanAddrs ⟨3232235520, 30⟩ ∧
            (3232235520 : Nat) + numAddresses ⟨3232235520, 30⟩ - 1 ∉ scanAddrs ⟨3232235520, 30⟩) ∧
        (numAddresses ⟨3232235520, 30⟩ ≤ 2 →
          (scanAddrs ⟨3232235520, 30⟩).length = numAddresses ⟨3232235520, 30⟩ ∧
            (numAddresses ⟨3232235520, 30⟩ = 2 →
              scanAddrs ⟨3232235520, 30⟩ = [3232235520, 3232235520 + 1]) ∧
            (numAddresses ⟨3232235520, 30⟩ = 1 →
              scanAddrs ⟨3232235520, 30⟩ = [3232235520]))) :=
  ⟨by decide, by decide, url_generator_host_counts ⟨3232235520, 30⟩ "" (by decide) (by decide)⟩

/-- C3: For every network specification whose address count exceeds
256, expansion fails with `RangeTooLarge` before any URL is built, and
`survey` aborts with the same error before any probing — for every
probe behavior and completion order, so no network I/O can influence
the result. -/
theorem url_generator_range_too_large (s : NetworkSpec) (path pattern : String)
    (behavior : String → FetchResult) (arrivalOf : List String → List String)
    (h : 256 < numAddresses s) :
    url_generator s path = Except.error ScanError.RangeTooLarge ∧
      survey s path pattern behavior arrivalOf = Except.error ScanError.RangeTooLarge := by
  have hgen : url_generator s path = Except.error ScanError.RangeTooLarge := by
    unfold url_generator
    rw [if_pos h]
  refine ⟨hgen, ?_⟩
  simp only [survey, hgen]

theorem url_generator_range_too_large_witness :
    256 < numAddresses ⟨167772160, 23⟩ ∧
      (url_generator ⟨167772160, 23⟩ "" = Except.error ScanError.RangeTooLarge ∧
        survey ⟨167772160, 23⟩ "" "" (fun _ => FetchResult.ok "") id =
          Except.error ScanError.RangeTooLarge) :=
  ⟨by decide,
    url_generator_range_too_large ⟨167772160, 23⟩ "" "" (fun _ => FetchResult.ok "") id
      (by decide)⟩

/-- C6 counterexample: the value `url_generator` returns is a Python
generator expression, consumed by its first iteration; iterating the
same returned sequence a second time yields nothing, not the same
addresses — here on network 192.168.0.0/30 the first pass yields two
URLs and the second pass yields none. -/
theorem url_generator_not_restartable :
    (((url_generator ⟨3232235520, 30⟩ "").toOption.getD ⟨[]⟩).toListConsume).1 ≠
      (((((url_generator ⟨3232235520, 30⟩ "").toOption.getD ⟨[]⟩).toListConsume).2).toListConsume).1 := by
  decide

/-- C6 (amended): the expansion is deterministic — invoking
`url_generator` twice on the same specification yields generators that
iterate to identical sequences in identical order — but each returned
generator is one-shot: after its first full iteration, a second
iteration yields the empty sequence. -/
theorem url_generator_one_shot (s : NetworkSpec) (path : String) (g : PyGen String)
    (hg : url_generator s path = Except.ok g) :
    ∃ g₂, url_generator s path = Except.ok g₂ ∧
      (g.toListConsume).1 = (g₂.toListConsume).1 ∧
      ((g.toListConsume).2.toListConsume).1 = [] :=
  ⟨g, hg, rfl, rfl⟩

theorem url_generator_one_shot_witness :
    url_generator ⟨3232235520, 30⟩ "" =
        Except.ok (⟨["http://192.168.0.1", "http://192.168.0.2"]⟩ : PyGen String) ∧
      (∃ g₂, url_generator ⟨3232235520, 30⟩ "" = Except.ok g₂ ∧
        ((⟨["http://192.168.0.1", "http://192.168.0.2"]⟩ : PyGen String).toListConsume).1 =
          (g₂.toListConsume).1 ∧
        (((⟨["http://192.168.0.1", "http://192.168.0.2"]⟩ : PyGen String).toListConsume).2.toListConsume).1
          = []) :=
  ⟨by decide, url_generator_one_shot ⟨3232235520, 30⟩ "" _ (by decide)⟩

/-- C8: For every host address and every path, the built URL has scheme
`http` and its host component parses back to exactly the original
address. -/
theorem built_url_scheme_and_host (addr : Nat) (path : String) (h : addr < 4294967296) :
    urlScheme (urlunsplit_http (ipToString addr) path) = "http" ∧
      parseIPv4 (urlsplit_hostname (urlunsplit_http (ipToString addr) path)) = some addr :=
  ⟨urlScheme_urlunsplit _ _, by rw [urlsplit_hostname_urlunsplit, parseIPv4_ipToString h]⟩

theorem built_url_scheme_and_host_witness :
    (3232235521 : Nat) < 4294967296 ∧
      (urlScheme (urlunsplit_http (ipToString 3232235521) "login.php") = "http" ∧
        parseIPv4 (urlsplit_hostname (urlunsplit_http (ipToString 3232235521) "login.php")) =
          some 3232235521) :=
  ⟨by decide, built_url_scheme_and_host 3232235521 "login.php" (by decide)⟩

/-- C10: For every non-empty path that does not start with `'/'`, the
built URL is `http://<address>/<path>`: a `'/'` separator is inserted
between the address and the path during URL composition. -/
theorem built_url_slash_insertion (addr : Nat) (path : String)
    (hne : path ≠ "") (hns : path.data.head? ≠ some '/') :
    urlunsplit_http (ipToString addr) path =
      "http://" ++ ipToString addr ++ "/" ++ path := by
  apply String.ext
  rw [data_urlunsplit, String.data_append, String.data_append, String.data_append]
  cases hp : path.data with
  | nil =>
    exact absurd (String.ext (by rw [hp])) hne
  | cons c rest =>
    have hc : c ≠ '/' := by
      rw [hp] at hns
      simpa using hns
    simp only [fullPathChars, if_neg hc]
    simp [List.append_assoc]

theorem built_url_slash_insertion_witness :
    ("index.html" : String) ≠ "" ∧ ("index.html" : String).data.head? ≠ some '/' ∧
      urlunsplit_http (ipToString 167772161) "index.html" =
        "http://" ++ ipToString 167772161 ++ "/" ++ "index.html" :=
  ⟨by decide, by decide, built_url_slash_insertion 167772161 "index.html" (by decide) (by decide)⟩

/-- C5 (failing evaluation): httpscan's `survey` returns the qualified
hosts in completion order, without any sort.  Scanning 10.0.0.0/29 with
every host answering `Found("x")`, an empty filter, and completions
arriving in reverse address order returns the hosts in descending
order, which is not ascending by numeric address value. -/
theorem httpscan_survey_unsorted_eval :
    (httpscan_survey ⟨167772160, 29⟩ "" "" (fun _ => FetchResult.ok "x") List.reverse).map
        (ascendingBy ipOfString) = Except.ok false := by
  decide

/-- On the same input, the httpfind variant of `survey` does return the
hosts ascending by numeric address value: the missing sort is specific
to httpscan. -/
theorem httpfind_survey_sorted_eval :
    (survey ⟨167772160, 29⟩ "" "" (fun _ => FetchResult.ok "x") List.reverse).map
        (ascendingBy hostnameKey) = Except.ok true := by
  decide

end Httpfind
